import Mathlib

/-!
Verification of the in-memory issue-tracker backend (`backend/main.py`).

The development shallowly embeds the store and its query pipeline:

* `Issue` mirrors the declared `Issue` pydantic model (the shape of every
  record produced by `create_issue` and assumed by the query pipeline).
* `StoredIssue` mirrors the runtime in-memory object: `update_issue` assigns
  fields with `setattr` and no assignment validation, so any field can in
  fact end up holding `None`; every field is therefore an `Option` there.
* `IssueUpdateRequest` mirrors the pydantic `IssueUpdate` model after
  `model_dump(exclude_unset=True)`: an outer `Option` records whether the
  field was present in the request at all, the inner value is the requested
  value, where `none` stands for an explicit JSON `null` (which pydantic
  accepts for all five fields, as each is declared `Optional`).
* Python `str.lower` is embedded as `pyLower`, the substring operator `in`
  as `strContains`, and the stable `list.sort(key=..., reverse=...)` as
  `pySort` via `List.insertionSort` (any stable sort yields the same list).
* Timestamps (`datetime.now()`) are embedded as naturals supplied by the
  caller; monotonicity of the clock is a hypothesis of the reachability
  relation `Reachable`.
-/

/-- The `IssueStatus` enum (`open` is a Lean keyword, hence `open_`). -/
inductive IssueStatus where
  | open_
  | in_progress
  | closed
deriving DecidableEq, Repr

/-- The `IssuePriority` enum. -/
inductive IssuePriority where
  | low
  | medium
  | high
  | critical
deriving DecidableEq, Repr

/-- Does `pre` occur at the start of `l`? (helper for the substring test) -/
def startsWith : List Char → List Char → Bool
  | [], _ => true
  | _ :: _, [] => false
  | a :: as, b :: bs => a == b && startsWith as bs

/-- Does `needle` occur contiguously inside `hay`? -/
def containsChars (needle : List Char) : List Char → Bool
  | [] => startsWith needle []
  | b :: bs => startsWith needle (b :: bs) || containsChars needle bs

/-- Python's `needle in hay` on strings. -/
def strContains (hay needle : String) : Bool :=
  containsChars needle.data hay.data

/-- Python's `str.lower()` (per-character lowercasing). -/
def pyLower (s : String) : String :=
  ⟨s.data.map Char.toLower⟩

/-- The declared `Issue` response model: the shape of every record the store
creates, and the shape the query pipeline in `get_issues` relies on. -/
structure Issue where
  id : String
  title : String
  description : Option String
  status : IssueStatus
  priority : IssuePriority
  assignee : Option String
  created_at : Nat
  updated_at : Nat
deriving DecidableEq, Repr

/-- The query parameters of `GET /issues`, with the FastAPI defaults. -/
structure IssueQuery where
  search : Option String := none
  status : Option IssueStatus := none
  priority : Option IssuePriority := none
  assignee : Option String := none
  sort_by : String := "updated_at"
  sort_order : String := "desc"
  page : Nat := 1
  page_size : Nat := 10
deriving Repr

/-- The defaults used when every query parameter is omitted. -/
def defaultQuery : IssueQuery := {}

/-- The search predicate of `get_issues`: the term occurs (case-insensitively)
in the title, or in the description if that is truthy, or in the assignee if
that is truthy.  Python's `x and y` on an optional string is falsy both for
`None` and for the empty string. -/
def searchMatch (s : String) (i : Issue) : Bool :=
  strContains (pyLower i.title) (pyLower s) ||
  (match i.description with
   | some d => !(d = "") && strContains (pyLower d) (pyLower s)
   | none => false) ||
  (match i.assignee with
   | some a => !(a = "") && strContains (pyLower a) (pyLower s)
   | none => false)

/-- The assignee-filter predicate of `get_issues`:
`issue.assignee and assignee.lower() in issue.assignee.lower()`. -/
def assigneeMatch (a : String) (i : Issue) : Bool :=
  match i.assignee with
  | some ra => !(ra = "") && strContains (pyLower ra) (pyLower a)
  | none => false

/-- The search step: `if search:` is skipped for `None` and for `""`. -/
def searchStep (search : Option String) (l : List Issue) : List Issue :=
  match search with
  | none => l
  | some s => if s = "" then l else l.filter (searchMatch s)

/-- The `status` exact-match filter (`if status:`; an enum member is always
truthy). -/
def statusFilter (st? : Option IssueStatus) (l : List Issue) : List Issue :=
  match st? with
  | none => l
  | some st => l.filter (fun i => decide (i.status = st))

/-- The `priority` exact-match filter. -/
def priorityFilter (p? : Option IssuePriority) (l : List Issue) : List Issue :=
  match p? with
  | none => l
  | some p => l.filter (fun i => decide (i.priority = p))

/-- The assignee substring filter (`if assignee:` is skipped for `None` and
for `""`). -/
def assigneeFilter (a? : Option String) (l : List Issue) : List Issue :=
  match a? with
  | none => l
  | some a => if a = "" then l else l.filter (assigneeMatch a)

/-- The search-and-filter stage of `get_issues`, in source order:
search, then status, then priority, then assignee. -/
def filterStage (q : IssueQuery) (db : List Issue) : List Issue :=
  assigneeFilter q.assignee
    (priorityFilter q.priority
      (statusFilter q.status
        (searchStep q.search db)))

/-- The `status_order` dictionary: `{"open": 1, "in-progress": 2, "closed": 3}`
(`dict.get(x.status, 0)` never falls back to `0` on a valid enum member). -/
def statusRank : IssueStatus → Nat
  | .open_ => 1
  | .in_progress => 2
  | .closed => 3

/-- The `priority_order` dictionary:
`{"low": 1, "medium": 2, "high": 3, "critical": 4}`. -/
def priorityRank : IssuePriority → Nat
  | .low => 1
  | .medium => 2
  | .high => 3
  | .critical => 4

/-- Python's `list.sort(key=key, reverse=reverse)`.  Python's sort is the
stable sort by the key (equal keys keep their pre-sort relative order), and
with `reverse=True` it is the stable sort by the reversed key order.  Stable
sorting is unique given the key order, so any stable algorithm is a faithful
embedding; we use `List.insertionSort`, which inserts each earlier element
in front of the later elements whose keys do not strictly precede it. -/
def pySort {γ : Type} [LinearOrder γ] (key : Issue → γ) (reverse : Bool)
    (l : List Issue) : List Issue :=
  if reverse then
    List.insertionSort (fun a b => key b ≤ key a) l
  else
    List.insertionSort (fun a b => key a ≤ key b) l

/-- The sort stage of `get_issues`: dispatch on `sort_by` (anything other
than the five named fields falls through to `updated_at`), with
`reverse = (sort_order == "desc")`. -/
def sortStep (sort_by sort_order : String) (l : List Issue) : List Issue :=
  let reverse : Bool := sort_order = "desc"
  if sort_by = "title" then
    pySort (fun x => pyLower x.title) reverse l
  else if sort_by = "status" then
    pySort (fun x => statusRank x.status) reverse l
  else if sort_by = "priority" then
    pySort (fun x => priorityRank x.priority) reverse l
  else if sort_by = "assignee" then
    pySort (fun x => x.assignee.getD "") reverse l
  else if sort_by = "created_at" then
    pySort (fun x => x.created_at) reverse l
  else
    pySort (fun x => x.updated_at) reverse l

/-- The ascending key order each `sort_by` value sorts by (used to state the
claims about the sort stage). -/
def sortRel (sort_by : String) (a b : Issue) : Prop :=
  if sort_by = "title" then pyLower a.title ≤ pyLower b.title
  else if sort_by = "status" then statusRank a.status ≤ statusRank b.status
  else if sort_by = "priority" then priorityRank a.priority ≤ priorityRank b.priority
  else if sort_by = "assignee" then a.assignee.getD "" ≤ b.assignee.getD ""
  else if sort_by = "created_at" then a.created_at ≤ b.created_at
  else a.updated_at ≤ b.updated_at

/-- The `pagination` object of the `get_issues` response. -/
structure Pagination where
  page : Nat
  pageSize : Nat
  totalCount : Nat
  totalPages : Nat
deriving DecidableEq, Repr

/-- The `get_issues` response dictionary. -/
structure ListResponse where
  issues : List Issue
  pagination : Pagination
  filters_applied :
    Option String × Option IssueStatus × Option IssuePriority × Option String
  sorting : String × String
deriving Repr

/-- `GET /issues`: search, filter, sort, paginate.  FastAPI has already
validated `page ≥ 1` and `1 ≤ page_size ≤ 100` at the boundary.  The slice
`filtered_issues[start_index:end_index]` is `drop start`/`take (end-start)`,
and a slice past the end of the list is empty. -/
def get_issues (db : List Issue) (q : IssueQuery) : ListResponse :=
  let filtered_issues := sortStep q.sort_by q.sort_order (filterStage q db)
  let total_count := filtered_issues.length
  let start_index := (q.page - 1) * q.page_size
  let paginated_issues := (filtered_issues.drop start_index).take q.page_size
  { issues := paginated_issues
    pagination :=
      { page := q.page
        pageSize := q.page_size
        totalCount := total_count
        totalPages := (total_count + q.page_size - 1) / q.page_size }
    filters_applied := (q.search, q.status, q.priority, q.assignee)
    sorting := (q.sort_by, q.sort_order) }

/-! ### The store: create and update -/

/-- The `IssueCreate` request body (after boundary validation has supplied
the declared defaults `status=open`, `priority=medium`). -/
structure IssueCreate where
  title : String
  description : Option String := none
  status : IssueStatus := .open_
  priority : IssuePriority := .medium
  assignee : Option String := none
deriving DecidableEq, Repr

/-- The pydantic validation of `IssueCreate`: `title` 1–200 characters,
`description` at most 2000, `assignee` at most 100. -/
def ValidCreate (d : IssueCreate) : Prop :=
  1 ≤ d.title.length ∧ d.title.length ≤ 200 ∧
  (∀ s, d.description = some s → s.length ≤ 2000) ∧
  (∀ s, d.assignee = some s → s.length ≤ 100)

/-- The in-memory issue object as it actually lives in `issues_db`.
`update_issue` writes fields with `setattr` and the model does not validate
assignments, so every field — including `title`, `status` and `priority`,
whose declared types are not optional — can end up holding `None`; each
field is therefore an `Option` here.  `Issue.toStored` injects the
well-typed records that `create_issue` builds. -/
structure StoredIssue where
  id : String
  title : Option String
  description : Option String
  status : Option IssueStatus
  priority : Option IssuePriority
  assignee : Option String
  created_at : Nat
  updated_at : Nat
deriving DecidableEq, Repr

/-- A freshly validated `Issue` record, as stored. -/
def Issue.toStored (i : Issue) : StoredIssue :=
  { id := i.id
    title := some i.title
    description := i.description
    status := some i.status
    priority := some i.priority
    assignee := i.assignee
    created_at := i.created_at
    updated_at := i.updated_at }

/-- `POST /issues`: build the record from the validated body, a fresh uuid,
and two separate `datetime.now()` calls (`t₁` for `created_at`, `t₂` for
`updated_at`, with `t₁ ≤ t₂` since the second call happens after the first);
the caller appends it to the collection. -/
def create_issue (issue_data : IssueCreate) (uuid : String) (t₁ t₂ : Nat) :
    Issue :=
  { id := uuid
    title := issue_data.title
    description := issue_data.description
    status := issue_data.status
    priority := issue_data.priority
    assignee := issue_data.assignee
    created_at := t₁
    updated_at := t₂ }

/-- The `IssueUpdate` request body after `model_dump(exclude_unset=True)`:
the outer `Option` is whether the field was present in the request at all,
the inner `Option` is the requested value, `none` being an explicit JSON
`null` (pydantic accepts `null` for every field, as all five are declared
`Optional`). -/
structure IssueUpdateRequest where
  title : Option (Option String) := none
  description : Option (Option String) := none
  status : Option (Option IssueStatus) := none
  priority : Option (Option IssuePriority) := none
  assignee : Option (Option String) := none
deriving DecidableEq, Repr

/-- The empty patch `{}`. -/
def emptyUpdate : IssueUpdateRequest := {}

/-- The pydantic validation of `IssueUpdate`: the length constraints apply
only to actual strings; an explicit `null` passes for every field. -/
def ValidUpdateRequest (u : IssueUpdateRequest) : Prop :=
  (∀ t, u.title = some (some t) → 1 ≤ t.length ∧ t.length ≤ 200) ∧
  (∀ s, u.description = some (some s) → s.length ≤ 2000) ∧
  (∀ s, u.assignee = some (some s) → s.length ≤ 100)

/-- The `setattr` loop of `update_issue` (`for field, value in update_data`)
followed by `issue.updated_at = datetime.now()`: every field present in the
dump is overwritten with the requested value, the others are untouched. -/
def applyUpdate (u : IssueUpdateRequest) (i : StoredIssue) (now : Nat) :
    StoredIssue :=
  { i with
    title := u.title.getD i.title
    description := u.description.getD i.description
    status := u.status.getD i.status
    priority := u.priority.getD i.priority
    assignee := u.assignee.getD i.assignee
    updated_at := now }

/-- The structured `detail` body of an `HTTPException`. -/
structure ErrorDetail where
  error : String
  message : String
  suggestion : String
deriving DecidableEq, Repr

/-- An `HTTPException` as raised by the handlers. -/
structure HTTPError where
  status_code : Nat
  detail : ErrorDetail
deriving DecidableEq, Repr

/-- The 404 detail used by `get_issue` and `update_issue`. -/
def notFoundDetail (issue_id : String) : ErrorDetail :=
  { error := "Issue not found"
    message := "No issue exists with ID: " ++ issue_id
    suggestion :=
      "Check the issue ID or use GET /issues to see all available issues" }

/-- The Python code mutates, in place, the first object in `issues_db` whose
`id` matches; in a value model that is: replace the first match. -/
def replaceFirst (db : List StoredIssue) (issue_id : String)
    (i' : StoredIssue) : List StoredIssue :=
  match db with
  | [] => []
  | i :: rest =>
    if i.id == issue_id then i' :: rest
    else i :: replaceFirst rest issue_id i'

/-- `PUT /issues/{issue_id}`: look the record up first
(`next(..., None)`); raise the structured 404 before touching anything if it
is absent; otherwise apply the patch and stamp `updated_at`.  Returns the
response (updated record or error) together with the collection after the
call. -/
def update_issue (db : List StoredIssue) (issue_id : String)
    (issue_update : IssueUpdateRequest) (now : Nat) :
    Except HTTPError StoredIssue × List StoredIssue :=
  match db.find? (fun i => i.id == issue_id) with
  | none =>
    (.error { status_code := 404, detail := notFoundDetail issue_id }, db)
  | some issue =>
    let updated := applyUpdate issue_update issue now
    (.ok updated, replaceFirst db issue_id updated)

/-- The states of `issues_db` reachable through boundary-validated requests,
indexed by the current clock value (the clock only moves forward).  The
collection starts empty; `create` appends a validated record; `update`
transforms the collection exactly as `update_issue` does (including the
no-op on a missing id). -/
inductive Reachable : Nat → List StoredIssue → Prop where
  | init : Reachable 0 []
  | create {t db} (d : IssueCreate) (uuid : String) (t₁ t₂ : Nat)
      (hr : Reachable t db) (hv : ValidCreate d)
      (h₁ : t ≤ t₁) (h₂ : t₁ ≤ t₂) :
      Reachable t₂ (db ++ [(create_issue d uuid t₁ t₂).toStored])
  | update {t db} (issue_id : String) (u : IssueUpdateRequest) (t' : Nat)
      (hr : Reachable t db) (hv : ValidUpdateRequest u) (h : t ≤ t') :
      Reachable t' (update_issue db issue_id u t').2

/-! ### The claims' predicates (C1) -/

/-- C1's search condition, transcribed from the claim: the term appears
case-insensitively in the title, or in the description when that is present,
or in the assignee when that is present. -/
def claimSearchHit (s : String) (i : Issue) : Bool :=
  strContains (pyLower i.title) (pyLower s) ||
  (match i.description with
   | some d => strContains (pyLower d) (pyLower s)
   | none => false) ||
  (match i.assignee with
   | some a => strContains (pyLower a) (pyLower s)
   | none => false)

/-- C1's record predicate, transcribed from the claim: the search condition
when `search` is present, AND exact `status`/`priority` matches when those
filters are present, AND the `assignee` filter appearing case-insensitively
inside the record's assignee when that filter is present. -/
def claimKeep (q : IssueQuery) (i : Issue) : Bool :=
  (match q.search with
   | none => true
   | some s => claimSearchHit s i) &&
  (match q.status with
   | none => true
   | some st => decide (i.status = st)) &&
  (match q.priority with
   | none => true
   | some p => decide (i.priority = p)) &&
  (match q.assignee with
   | none => true
   | some a =>
     match i.assignee with
     | some ra => strContains (pyLower ra) (pyLower a)
     | none => false)

/-! ### Concrete records and requests used by witnesses -/

/-- A record with no assignee. -/
def unassignedIssue : Issue :=
  { id := "issue-1"
    title := "Fix login bug"
    description := none
    status := .open_
    priority := .medium
    assignee := none
    created_at := 0
    updated_at := 0 }

/-- A list query whose `assignee` filter is the empty string
(`GET /issues?assignee=`). -/
def emptyAssigneeQuery : IssueQuery := { assignee := some "" }

/-- A query exercising search and a non-empty assignee filter. -/
def demoQuery : IssueQuery := { search := some "login", assignee := some "ali" }

/-- A record with assignee and description present. -/
def demoIssueA : Issue :=
  { id := "a"
    title := "Fix LOGIN bug"
    description := some "Crash on login"
    status := .open_
    priority := .high
    assignee := some "Alice@example.com"
    created_at := 1
    updated_at := 2 }

/-- A second record, later in insertion order. -/
def demoIssueB : Issue :=
  { id := "b"
    title := "Add dark mode"
    description := none
    status := .in_progress
    priority := .critical
    assignee := none
    created_at := 3
    updated_at := 4 }

/-- A boundary-valid create request. -/
def demoCreate : IssueCreate := { title := "Fix login bug" }

/-- The record `POST /issues` builds from `demoCreate` at time 3. -/
def demoStored : StoredIssue := (create_issue demoCreate "uuid-1" 3 3).toStored

/-- The request body `{"title": null}`: the field is present, its value is an
explicit `null`.  Pydantic accepts it because `IssueUpdate.title` is
`Optional[str]` (the 1–200-character constraint only applies to strings). -/
def nullTitlePatch : IssueUpdateRequest := { title := some none }

/-- The request body `{"priority": "high"}`. -/
def highPriorityPatch : IssueUpdateRequest :=
  { priority := some (some .high) }

/-- The request body `{"assignee": null}` (clearing the assignee). -/
def clearAssigneePatch : IssueUpdateRequest := { assignee := some none }

/-! ### String lemmas -/

theorem containsChars_nil (h : List Char) : containsChars [] h = true := by
  cases h <;> simp [containsChars, startsWith]

theorem strContains_empty_needle (hay : String) : strContains hay "" = true :=
  containsChars_nil hay.data

theorem pyLower_eq_empty_iff (s : String) : pyLower s = "" ↔ s = "" := by
  cases s with
  | mk data =>
    simp [pyLower, String.ext_iff]

theorem strContains_empty_hay {needle : String} (h : needle ≠ "") :
    strContains "" needle = false := by
  have hd : needle.data ≠ [] := by
    intro hnil
    exact h (by cases needle; simp_all)
  cases hn : needle.data with
  | nil => exact absurd hn hd
  | cons c cs => simp [strContains, hn, containsChars, startsWith]

theorem pyLower_ne_empty {s : String} (h : s ≠ "") : pyLower s ≠ "" :=
  fun hc => h ((pyLower_eq_empty_iff s).mp hc)

theorem pyLower_empty : pyLower "" = "" := rfl

/-- On a non-empty search term the code's search predicate coincides with the
claim's: the code's extra truthiness guard on an empty description or
assignee is redundant, because a non-empty term is never a substring of the
empty string. -/
theorem searchMatch_eq_claim {s : String} (hs : s ≠ "") (i : Issue) :
    searchMatch s i = claimSearchHit s i := by
  unfold searchMatch claimSearchHit
  congr 1
  · congr 1
    cases i.description with
    | none => rfl
    | some d =>
      by_cases hd : d = ""
      · subst hd
        simp [pyLower_empty, strContains_empty_hay (pyLower_ne_empty hs)]
      · simp [hd]
  · cases i.assignee with
    | none => rfl
    | some a =>
      by_cases ha : a = ""
      · subst ha
        simp [pyLower_empty, strContains_empty_hay (pyLower_ne_empty hs)]
      · simp [ha]

/-- On a non-empty assignee filter the code's predicate coincides with the
claim's clause, for the same reason. -/
theorem assigneeMatch_eq_claim {a : String} (ha : a ≠ "") (i : Issue) :
    assigneeMatch a i =
      (match i.assignee with
       | some ra => strContains (pyLower ra) (pyLower a)
       | none => false) := by
  unfold assigneeMatch
  cases i.assignee with
  | none => rfl
  | some ra =>
    by_cases hr : ra = ""
    · subst hr
      simp [pyLower_empty, strContains_empty_hay (pyLower_ne_empty ha)]
    · simp [hr]

/-! ### The filter stage as a single filter -/

theorem searchStep_eq_filter (s? : Option String) (l : List Issue) :
    searchStep s? l =
      l.filter (fun i =>
        match s? with
        | none => true
        | some s => claimSearchHit s i) := by
  cases s? with
  | none => simp [searchStep]
  | some s =>
    by_cases hs : s = ""
    · subst hs
      rw [searchStep, if_pos rfl]
      symm
      rw [List.filter_eq_self]
      intro i _
      simp [claimSearchHit, strContains_empty_needle, pyLower_empty]
    · rw [searchStep, if_neg hs]
      exact List.filter_congr fun i _ => searchMatch_eq_claim hs i

theorem statusFilter_eq_filter (st? : Option IssueStatus) (l : List Issue) :
    statusFilter st? l =
      l.filter (fun i =>
        match st? with
        | none => true
        | some st => decide (i.status = st)) := by
  cases st? <;> simp [statusFilter]

theorem priorityFilter_eq_filter (p? : Option IssuePriority) (l : List Issue) :
    priorityFilter p? l =
      l.filter (fun i =>
        match p? with
        | none => true
        | some p => decide (i.priority = p)) := by
  cases p? <;> simp [priorityFilter]

theorem assigneeFilter_eq_filter {a? : Option String}
    (ha : ∀ a, a? = some a → a ≠ "") (l : List Issue) :
    assigneeFilter a? l =
      l.filter (fun i =>
        match a? with
        | none => true
        | some a =>
          match i.assignee with
          | some ra => strContains (pyLower ra) (pyLower a)
          | none => false) := by
  cases a? with
  | none => simp [assigneeFilter]
  | some a =>
    rw [assigneeFilter, if_neg (ha a rfl)]
    exact List.filter_congr fun i _ => assigneeMatch_eq_claim (ha a rfl) i

/-- C1 (amended): for every list query whose `assignee` filter, when
present, is non-empty, a record survives the search-and-filter stage iff it
satisfies the claim's conjunction `claimKeep`: the search condition when
`search` is present (an absent — or empty, hence falsy — `search` keeps all
records), AND the exact `status` match when present, AND the exact
`priority` match when present, AND the case-insensitive substring match of
the `assignee` filter inside the record's assignee when present.  (The
amendment: the code skips an *empty* `assignee` filter entirely — Python's
`if assignee:` — whereas the claim as stated would drop records with no
assignee; see the counterexample.) -/
theorem search_filter_stage_matches_claim (q : IssueQuery) (l : List Issue)
    (ha : ∀ a, q.assignee = some a → a ≠ "") :
    filterStage q l = l.filter (claimKeep q) := by
  rw [filterStage, searchStep_eq_filter, statusFilter_eq_filter,
    priorityFilter_eq_filter, assigneeFilter_eq_filter ha,
    List.filter_filter, List.filter_filter, List.filter_filter]
  apply List.filter_congr
  intro i _
  simp only [claimKeep]
  cases hsq : q.search <;> cases hst : q.status <;> cases hpr : q.priority <;>
      cases haq : q.assignee <;>
    simp only [hsq, hst, hpr, haq, Bool.and_true, Bool.true_and,
      Bool.and_comm, Bool.and_left_comm, Bool.and_assoc]

/-- C1 witness: the amended equivalence applied to a concrete query (search
term `"login"`, assignee filter `"ali"`) on a concrete two-record
collection, with the non-emptiness hypothesis discharged. -/
theorem search_filter_stage_matches_claim_witness :
    (∀ a, demoQuery.assignee = some a → a ≠ "") ∧
    filterStage demoQuery [demoIssueA, demoIssueB] =
      [demoIssueA, demoIssueB].filter (claimKeep demoQuery) := by
  have ha : ∀ a, demoQuery.assignee = some a → a ≠ "" := by
    intro a h
    injection h with h
    subst h
    decide
  exact ⟨ha, search_filter_stage_matches_claim demoQuery [demoIssueA, demoIssueB] ha⟩

/-- C1 counterexample: the claim as stated fails on the query
`GET /issues?assignee=` (assignee filter present but empty) and a record
with no assignee.  The code's `if assignee:` skips the filter entirely and
keeps the record, while the claim's condition — the filter term appearing as
a substring of the record's assignee — is false for a record that has no
assignee, so the claimed biconditional would drop it. -/
theorem empty_assignee_filter_refutes_claim :
    filterStage emptyAssigneeQuery [unassignedIssue] ≠
      [unassignedIssue].filter (claimKeep emptyAssigneeQuery) := by
  decide

/-! ### Sorting lemmas -/

theorem pySort_perm {γ : Type} [LinearOrder γ] (key : Issue → γ)
    (reverse : Bool) (l : List Issue) : List.Perm (pySort key reverse l) l := by
  cases reverse <;> simp only [pySort, Bool.false_eq_true, if_false, if_true,
    reduceIte] <;> exact List.perm_insertionSort _ l

theorem pySort_sorted_asc {γ : Type} [LinearOrder γ] (key : Issue → γ)
    (l : List Issue) :
    (pySort key false l).Sorted (fun a b => key a ≤ key b) := by
  haveI : IsTotal Issue (fun a b => key a ≤ key b) :=
    ⟨fun a b => le_total (key a) (key b)⟩
  haveI : IsTrans Issue (fun a b => key a ≤ key b) :=
    ⟨fun _ _ _ hab hbc => le_trans hab hbc⟩
  simp only [pySort, Bool.false_eq_true, if_false, reduceIte]
  exact List.sorted_insertionSort _ l

theorem pySort_sorted_desc {γ : Type} [LinearOrder γ] (key : Issue → γ)
    (l : List Issue) :
    (pySort key true l).Sorted (fun a b => key b ≤ key a) := by
  haveI : IsTotal Issue (fun a b => key b ≤ key a) :=
    ⟨fun a b => le_total (key b) (key a)⟩
  haveI : IsTrans Issue (fun a b => key b ≤ key a) :=
    ⟨fun _ _ _ hab hbc => le_trans hbc hab⟩
  simp only [pySort, if_true]
  exact List.sorted_insertionSort _ l

/-- Stability of insertion sort, in filter form: if all elements satisfying
`p` are mutually related by `r` (e.g. because they are tied on the sort key),
their subsequence is untouched by the sort. -/
theorem insertionSort_filter_of_ties {β : Type} (r : β → β → Prop)
    [DecidableRel r] (p : β → Bool) (l : List β)
    (hp : ∀ a b, p a = true → p b = true → r a b) :
    (List.insertionSort r l).filter p = l.filter p := by
  have hmem : ∀ x ∈ l.filter p, p x = true := fun x hx =>
    (List.mem_filter.mp hx).2
  have hpair : (l.filter p).Pairwise r :=
    List.pairwise_of_forall_mem_list fun a ha b hb =>
      hp a b (hmem a ha) (hmem b hb)
  have hsub : List.Sublist (l.filter p) (List.insertionSort r l) :=
    List.sublist_insertionSort hpair (List.filter_sublist l)
  have hidem : (l.filter p).filter p = l.filter p :=
    List.filter_eq_self.mpr hmem
  have h1 : List.Sublist (l.filter p) ((List.insertionSort r l).filter p) := by
    have := hsub.filter p
    rwa [hidem] at this
  have h2 : List.Perm ((List.insertionSort r l).filter p) (l.filter p) :=
    (List.perm_insertionSort r l).filter p
  exact (h1.eq_of_length h2.length_eq.symm).symm

/-- Stability of `pySort` (either direction): the subsequence of records
tied at any key value `v` is exactly their pre-sort subsequence. -/
theorem pySort_filter_key {γ : Type} [LinearOrder γ] (key : Issue → γ)
    (reverse : Bool) (l : List Issue) (v : γ) :
    (pySort key reverse l).filter (fun i => decide (key i = v)) =
      l.filter (fun i => decide (key i = v)) := by
  cases reverse <;>
    simp only [pySort, Bool.false_eq_true, if_false, if_true, reduceIte] <;>
    apply insertionSort_filter_of_ties <;>
    intro a b ha hb <;>
    rw [decide_eq_true_eq] at ha hb <;>
    rw [ha, hb]

/-! ### The sort stage, branch by branch -/

theorem sortStep_title (so : String) (l : List Issue) :
    sortStep "title" so l =
      pySort (fun x => pyLower x.title) (decide (so = "desc")) l := rfl

theorem sortStep_status (so : String) (l : List Issue) :
    sortStep "status" so l =
      pySort (fun x => statusRank x.status) (decide (so = "desc")) l := rfl

theorem sortStep_priority (so : String) (l : List Issue) :
    sortStep "priority" so l =
      pySort (fun x => priorityRank x.priority) (decide (so = "desc")) l := rfl

theorem decide_asc_eq_desc : (decide (("asc" : String) = "desc")) = false := by
  decide

/-- C2: sorting by `priority` (resp. `status`) orders the output by the
fixed ranks low=1 < medium=2 < high=3 < critical=4 (resp. open=1 <
in-progress=2 < closed=3) — ascending for `sort_order="asc"`, descending for
`sort_order="desc"` — the output is a permutation of the input, and the sort
is stable: for every rank value, the subsequence of records with that rank
is exactly their pre-sort (insertion-order) subsequence. -/
theorem priority_status_sort_ranked_and_stable (l : List Issue) :
    (List.Perm (sortStep "priority" "asc" l) l ∧
     (sortStep "priority" "asc" l).Sorted
       (fun a b => priorityRank a.priority ≤ priorityRank b.priority) ∧
     List.Perm (sortStep "priority" "desc" l) l ∧
     (sortStep "priority" "desc" l).Sorted
       (fun a b => priorityRank b.priority ≤ priorityRank a.priority) ∧
     (∀ v : Nat,
       (sortStep "priority" "asc" l).filter
           (fun i => decide (priorityRank i.priority = v)) =
         l.filter (fun i => decide (priorityRank i.priority = v))) ∧
     (∀ v : Nat,
       (sortStep "priority" "desc" l).filter
           (fun i => decide (priorityRank i.priority = v)) =
         l.filter (fun i => decide (priorityRank i.priority = v)))) ∧
    (List.Perm (sortStep "status" "asc" l) l ∧
     (sortStep "status" "asc" l).Sorted
       (fun a b => statusRank a.status ≤ statusRank b.status) ∧
     List.Perm (sortStep "status" "desc" l) l ∧
     (sortStep "status" "desc" l).Sorted
       (fun a b => statusRank b.status ≤ statusRank a.status) ∧
     (∀ v : Nat,
       (sortStep "status" "asc" l).filter
           (fun i => decide (statusRank i.status = v)) =
         l.filter (fun i => decide (statusRank i.status = v))) ∧
     (∀ v : Nat,
       (sortStep "status" "desc" l).filter
           (fun i => decide (statusRank i.status = v)) =
         l.filter (fun i => decide (statusRank i.status = v)))) := by
  rw [sortStep_priority, sortStep_priority, sortStep_status, sortStep_status,
    decide_asc_eq_desc]
  have hdd : (decide (("desc" : String) = "desc")) = true := by decide
  rw [hdd]
  exact
    ⟨⟨pySort_perm _ false l, pySort_sorted_asc _ l,
      pySort_perm _ true l, pySort_sorted_desc _ l,
      fun v => pySort_filter_key _ false l v,
      fun v => pySort_filter_key _ true l v⟩,
     ⟨pySort_perm _ false l, pySort_sorted_asc _ l,
      pySort_perm _ true l, pySort_sorted_desc _ l,
      fun v => pySort_filter_key _ false l v,
      fun v => pySort_filter_key _ true l v⟩⟩

/-- Any `sort_order` whose decision against `"desc"` is false yields the
ascending order of the selected key, whatever `sort_by` is. -/
theorem sortStep_sorted_of_not_desc (sb so : String) (l : List Issue)
    (hd : (decide (so = "desc")) = false) :
    (sortStep sb so l).Sorted (sortRel sb) := by
  unfold sortStep sortRel
  simp only [hd]
  by_cases h1 : sb = "title"
  · simp only [if_pos h1]
    exact pySort_sorted_asc _ l
  · simp only [if_neg h1]
    by_cases h2 : sb = "status"
    · simp only [if_pos h2]
      exact pySort_sorted_asc _ l
    · simp only [if_neg h2]
      by_cases h3 : sb = "priority"
      · simp only [if_pos h3]
        exact pySort_sorted_asc _ l
      · simp only [if_neg h3]
        by_cases h4 : sb = "assignee"
        · simp only [if_pos h4]
          exact pySort_sorted_asc _ l
        · simp only [if_neg h4]
          by_cases h5 : sb = "created_at"
          · simp only [if_pos h5]
            exact pySort_sorted_asc _ l
          · simp only [if_neg h5]
            exact pySort_sorted_asc _ l

/-- `sort_order="desc"` yields the descending order of the selected key. -/
theorem sortStep_sorted_desc (sb : String) (l : List Issue) :
    (sortStep sb "desc" l).Sorted (fun a b => sortRel sb b a) := by
  have hdd : (decide (("desc" : String) = "desc")) = true := by decide
  unfold sortStep sortRel
  simp only [hdd]
  by_cases h1 : sb = "title"
  · simp only [if_pos h1]
    exact pySort_sorted_desc _ l
  · simp only [if_neg h1]
    by_cases h2 : sb = "status"
    · simp only [if_pos h2]
      exact pySort_sorted_desc _ l
    · simp only [if_neg h2]
      by_cases h3 : sb = "priority"
      · simp only [if_pos h3]
        exact pySort_sorted_desc _ l
      · simp only [if_neg h3]
        by_cases h4 : sb = "assignee"
        · simp only [if_pos h4]
          exact pySort_sorted_desc _ l
        · simp only [if_neg h4]
          by_cases h5 : sb = "created_at"
          · simp only [if_pos h5]
            exact pySort_sorted_desc _ l
          · simp only [if_neg h5]
            exact pySort_sorted_desc _ l

/-- C10: for every list query, any `sort_order` other than the exact string
`"desc"` — `"asc"`, `"ASC"`, arbitrary garbage — produces ascending order on
the selected sort key rather than an error; the literal `"desc"`, which is
also the declared default of the parameter, produces descending order. -/
theorem only_desc_sorts_descending (sb so : String) (l : List Issue) :
    defaultQuery.sort_order = "desc" ∧
    (so ≠ "desc" → (sortStep sb so l).Sorted (sortRel sb)) ∧
    (sortStep sb "desc" l).Sorted (fun a b => sortRel sb b a) :=
  ⟨rfl,
   fun h => sortStep_sorted_of_not_desc sb so l (decide_eq_false h),
   sortStep_sorted_desc sb l⟩

/-! ### Pagination arithmetic -/

/-- `(t + ps - 1) / ps` pages of size `ps` cover `t` records. -/
theorem ceil_div_lower (t ps : Nat) (h : 0 < ps) :
    t ≤ ((t + ps - 1) / ps) * ps := by
  cases t with
  | zero => simp
  | succ t' =>
    have hD : (t' + 1 + ps - 1) / ps = t' / ps + 1 := by
      have he : t' + 1 + ps - 1 = t' + ps := by omega
      rw [he, Nat.add_div_right _ h]
    rw [hD, Nat.add_mul, Nat.one_mul]
    have hdm : ps * (t' / ps) + t' % ps = t' := Nat.div_add_mod t' ps
    have hm : t' % ps < ps := Nat.mod_lt _ h
    calc t' + 1 = ps * (t' / ps) + (t' % ps + 1) := by
          rw [← Nat.add_assoc, hdm]
      _ ≤ ps * (t' / ps) + ps := Nat.add_le_add_left (Nat.succ_le_of_lt hm) _
      _ = t' / ps * ps + ps := by rw [Nat.mul_comm]

/-- `(t + ps - 1) / ps` is the least page count covering `t` records. -/
theorem ceil_div_le (t ps m : Nat) (h : 0 < ps) (hm : t ≤ m * ps) :
    (t + ps - 1) / ps ≤ m := by
  have hlt : (t + ps - 1) / ps < m + 1 := by
    rw [Nat.div_lt_iff_lt_mul h, Nat.add_mul, Nat.one_mul]
    have h2 : t + ps ≤ m * ps + ps := Nat.add_le_add_right hm ps
    have h3 : t + ps - 1 < t + ps := by omega
    exact Nat.lt_of_lt_of_le h3 h2
  exact Nat.lt_succ_iff.mp hlt

/-- Concatenating `n` consecutive `ps`-sized slices covers the whole list,
provided `n * ps` reaches its length. -/
theorem join_chunks {α : Type} (ps : Nat) :
    ∀ (n : Nat) (l : List α), l.length ≤ n * ps →
      ((List.range n).map (fun k => (l.drop (k * ps)).take ps)).flatten = l := by
  intro n
  induction n with
  | zero =>
    intro l hl
    simp only [Nat.zero_mul, Nat.le_zero, List.length_eq_zero] at hl
    subst hl
    simp
  | succ n ih =>
    intro l hl
    rw [List.range_succ_eq_map, List.map_cons, List.map_map, List.flatten_cons]
    have hcomp : ∀ k ∈ List.range n,
        ((fun k => (l.drop (k * ps)).take ps) ∘ Nat.succ) k =
          (((l.drop ps).drop (k * ps)).take ps) := by
      intro k _
      simp only [Function.comp_apply, List.drop_drop]
      rw [Nat.succ_mul, Nat.add_comm]
    rw [List.map_congr_left hcomp]
    have hlen : (l.drop ps).length ≤ n * ps := by
      rw [List.length_drop]
      have : l.length ≤ n * ps + ps := by
        calc l.length ≤ (n + 1) * ps := hl
          _ = n * ps + ps := by rw [Nat.add_mul, Nat.one_mul]
      omega
    rw [ih (l.drop ps) hlen]
    simp only [Nat.zero_mul, List.drop_zero]
    exact List.take_append_drop ps l

/-- C3: for every list query with `page ≥ 1` and `page_size ∈ [1,100]`, the
returned page is the half-open slice `[(page-1)*page_size, page*page_size)`
of the filtered-and-sorted sequence; a page past the end of that sequence is
empty rather than an error; `totalCount` is the number of matching records
before pagination; and `totalPages` is the ceiling of
`totalCount / page_size` (characterised as the least `m` with
`totalCount ≤ m * page_size`). -/
theorem pagination_slice_and_totals (db : List Issue) (q : IssueQuery)
    (hp : 1 ≤ q.page) (hs1 : 1 ≤ q.page_size) (hs2 : q.page_size ≤ 100) :
    (get_issues db q).issues =
      ((sortStep q.sort_by q.sort_order (filterStage q db)).drop
        ((q.page - 1) * q.page_size)).take q.page_size ∧
    ((sortStep q.sort_by q.sort_order (filterStage q db)).length ≤
        (q.page - 1) * q.page_size → (get_issues db q).issues = []) ∧
    (get_issues db q).pagination.totalCount =
      (sortStep q.sort_by q.sort_order (filterStage q db)).length ∧
    (sortStep q.sort_by q.sort_order (filterStage q db)).length ≤
      (get_issues db q).pagination.totalPages * q.page_size ∧
    (∀ m, (sortStep q.sort_by q.sort_order (filterStage q db)).length ≤
        m * q.page_size → (get_issues db q).pagination.totalPages ≤ m) := by
  refine ⟨rfl, ?_, rfl, ?_, ?_⟩
  · intro h
    show ((sortStep q.sort_by q.sort_order (filterStage q db)).drop
      ((q.page - 1) * q.page_size)).take q.page_size = []
    rw [List.drop_eq_nil_of_le h, List.take_nil]
  · exact ceil_div_lower _ _ hs1
  · intro m hm
    exact ceil_div_le _ _ m hs1 hm

/-- C3 witness: the theorem applied to the default query (page 1, page size
10) on a concrete two-record collection, the boundary hypotheses discharged
by evaluation. -/
theorem pagination_slice_and_totals_witness :
    (get_issues [demoIssueA, demoIssueB] defaultQuery).pagination.totalCount =
      (sortStep defaultQuery.sort_by defaultQuery.sort_order
        (filterStage defaultQuery [demoIssueA, demoIssueB])).length :=
  (pagination_slice_and_totals [demoIssueA, demoIssueB] defaultQuery
    (by decide) (by decide) (by decide)).2.2.1

/-- C9: for a fixed query and page size, concatenating the pages numbered
`1` through `totalPages` reproduces the whole filtered-and-sorted sequence
exactly — every matching record once, in order, no gaps, no duplicates. -/
theorem pages_concat_reproduce_sequence (db : List Issue) (q : IssueQuery)
    (hs1 : 1 ≤ q.page_size) (hs2 : q.page_size ≤ 100) :
    ((List.range (get_issues db q).pagination.totalPages).map
        (fun k => (get_issues db { q with page := k + 1 }).issues)).flatten =
      sortStep q.sort_by q.sort_order (filterStage q db) := by
  have hpages : ∀ k, (get_issues db { q with page := k + 1 }).issues =
      ((sortStep q.sort_by q.sort_order (filterStage q db)).drop
        (k * q.page_size)).take q.page_size := by
    intro k
    show ((sortStep q.sort_by q.sort_order (filterStage q db)).drop
        ((k + 1 - 1) * q.page_size)).take q.page_size = _
    rw [Nat.add_sub_cancel]
  rw [List.map_congr_left (fun k _ => hpages k)]
  exact join_chunks q.page_size _ _
    (ceil_div_lower
      (sortStep q.sort_by q.sort_order (filterStage q db)).length
      q.page_size hs1)

/-- C9 witness: the theorem applied to the default query on a concrete
two-record collection, hypotheses discharged by evaluation. -/
theorem pages_concat_reproduce_sequence_witness :
    ((List.range
        (get_issues [demoIssueA, demoIssueB] defaultQuery).pagination.totalPages).map
        (fun k =>
          (get_issues [demoIssueA, demoIssueB]
            { defaultQuery with page := k + 1 }).issues)).flatten =
      sortStep defaultQuery.sort_by defaultQuery.sort_order
        (filterStage defaultQuery [demoIssueA, demoIssueB]) :=
  pages_concat_reproduce_sequence [demoIssueA, demoIssueB] defaultQuery
    (by decide) (by decide)

/-! ### Update semantics -/

/-- C4: exactly the fields explicitly present in an update request are
changed (besides `updated_at`): each omitted field keeps its previous value,
each present field — including one explicitly set to `null`, e.g. clearing
`assignee` — is applied, and `id` and `created_at` are untouched. -/
theorem update_applies_exactly_present_fields (u : IssueUpdateRequest)
    (i : StoredIssue) (now : Nat) :
    (u.title = none → (applyUpdate u i now).title = i.title) ∧
    (∀ v, u.title = some v → (applyUpdate u i now).title = v) ∧
    (u.description = none → (applyUpdate u i now).description = i.description) ∧
    (∀ v, u.description = some v → (applyUpdate u i now).description = v) ∧
    (u.status = none → (applyUpdate u i now).status = i.status) ∧
    (∀ v, u.status = some v → (applyUpdate u i now).status = v) ∧
    (u.priority = none → (applyUpdate u i now).priority = i.priority) ∧
    (∀ v, u.priority = some v → (applyUpdate u i now).priority = v) ∧
    (u.assignee = none → (applyUpdate u i now).assignee = i.assignee) ∧
    (∀ v, u.assignee = some v → (applyUpdate u i now).assignee = v) ∧
    (applyUpdate u i now).id = i.id ∧
    (applyUpdate u i now).created_at = i.created_at := by
  refine ⟨fun h => ?_, fun v h => ?_, fun h => ?_, fun v h => ?_,
    fun h => ?_, fun v h => ?_, fun h => ?_, fun v h => ?_,
    fun h => ?_, fun v h => ?_, rfl, rfl⟩ <;>
  simp [applyUpdate, h]

/-- C4 witness: `update(id, {priority: "high"})` changes only `priority`
(and the timestamp), and `update(id, {assignee: null})` really clears the
assignee. -/
theorem update_applies_exactly_present_fields_witness :
    (applyUpdate highPriorityPatch demoStored 7).title = demoStored.title ∧
    (applyUpdate highPriorityPatch demoStored 7).description =
      demoStored.description ∧
    (applyUpdate highPriorityPatch demoStored 7).status = demoStored.status ∧
    (applyUpdate highPriorityPatch demoStored 7).assignee =
      demoStored.assignee ∧
    (applyUpdate highPriorityPatch demoStored 7).priority =
      some IssuePriority.high ∧
    (applyUpdate clearAssigneePatch demoStored 7).assignee = none :=
  ⟨(update_applies_exactly_present_fields highPriorityPatch demoStored 7).1
      rfl,
   (update_applies_exactly_present_fields highPriorityPatch demoStored
      7).2.2.1 rfl,
   (update_applies_exactly_present_fields highPriorityPatch demoStored
      7).2.2.2.2.1 rfl,
   (update_applies_exactly_present_fields highPriorityPatch demoStored
      7).2.2.2.2.2.2.2.2.1 rfl,
   (update_applies_exactly_present_fields highPriorityPatch demoStored
      7).2.2.2.2.2.2.2.1 (some IssuePriority.high) rfl,
   (update_applies_exactly_present_fields clearAssigneePatch demoStored
      7).2.2.2.2.2.2.2.2.2.1 none rfl⟩

/-- C5: an update whose id matches no record fails with the structured 404
naming the missing id, and returns the collection completely unchanged (the
lookup happens before any field is applied). -/
theorem update_missing_id_404_and_unchanged (db : List StoredIssue)
    (issue_id : String) (u : IssueUpdateRequest) (now : Nat)
    (h : ∀ i, i ∈ db → i.id ≠ issue_id) :
    update_issue db issue_id u now =
      (.error
        { status_code := 404
          detail :=
            { error := "Issue not found"
              message := "No issue exists with ID: " ++ issue_id
              suggestion :=
                "Check the issue ID or use GET /issues to see all available issues" } },
       db) := by
  have hf : db.find? (fun i => i.id == issue_id) = none := by
    rw [List.find?_eq_none]
    intro x hx
    simp [h x hx]
  rw [update_issue, hf]
  rfl

/-- C5 witness: the theorem applied to a concrete one-record collection and
an id present nowhere in it. -/
theorem update_missing_id_404_and_unchanged_witness :
    update_issue [demoStored] "missing-id" emptyUpdate 9 =
      (.error
        { status_code := 404
          detail :=
            { error := "Issue not found"
              message := "No issue exists with ID: " ++ "missing-id"
              suggestion :=
                "Check the issue ID or use GET /issues to see all available issues" } },
       [demoStored]) :=
  update_missing_id_404_and_unchanged [demoStored] "missing-id" emptyUpdate 9
    (by decide)

/-- C8: every successful update stamps `updated_at` with the current time —
even an update that changes no visible field — and never modifies `id` or
`created_at` of the record it found. -/
theorem update_sets_timestamp_preserves_identity (db : List StoredIssue)
    (issue_id : String) (u : IssueUpdateRequest) (now : Nat)
    (r : StoredIssue) (h : (update_issue db issue_id u now).1 = .ok r) :
    r.updated_at = now ∧
    ∃ i, db.find? (fun j => j.id == issue_id) = some i ∧
      r.id = i.id ∧ r.created_at = i.created_at := by
  cases hf : db.find? (fun j => j.id == issue_id) with
  | none =>
    rw [update_issue, hf] at h
    cases h
  | some i =>
    rw [update_issue, hf] at h
    have hr : applyUpdate u i now = r := by
      cases h
      rfl
    exact ⟨by rw [← hr]; rfl, i, rfl, by rw [← hr]; rfl, by rw [← hr]; rfl⟩

/-- C8 witness: the theorem applied to a successful update with the *empty*
patch `{}` at time 9: the timestamp is stamped anyway and id/created_at
survive. -/
theorem update_sets_timestamp_preserves_identity_witness :
    (applyUpdate emptyUpdate demoStored 9).updated_at = 9 ∧
    ∃ i, [demoStored].find? (fun j => j.id == "uuid-1") = some i ∧
      (applyUpdate emptyUpdate demoStored 9).id = i.id ∧
      (applyUpdate emptyUpdate demoStored 9).created_at = i.created_at :=
  update_sets_timestamp_preserves_identity [demoStored] "uuid-1" emptyUpdate
    9 (applyUpdate emptyUpdate demoStored 9) (by rfl)

/-! ### Reachability invariants -/

theorem mem_replaceFirst {i i' : StoredIssue} {issue_id : String} :
    ∀ {db : List StoredIssue}, i ∈ replaceFirst db issue_id i' →
      i = i' ∨ i ∈ db := by
  intro db
  induction db with
  | nil => intro h; cases h
  | cons j rest ih =>
    intro h
    rw [replaceFirst] at h
    by_cases hj : (j.id == issue_id) = true
    · rw [if_pos hj] at h
      rcases List.mem_cons.mp h with h | h
      · exact .inl h
      · exact .inr (List.mem_cons_of_mem _ h)
    · rw [if_neg hj] at h
      rcases List.mem_cons.mp h with h | h
      · exact .inr (h ▸ List.mem_cons_self _ _)
      · rcases ih h with h | h
        · exact .inl h
        · exact .inr (List.mem_cons_of_mem _ h)

/-- The inductive invariant behind C7: in every reachable state, every
record's `created_at` is at most its `updated_at`, and no timestamp lies in
the future of the clock. -/
theorem reachable_timestamps {t : Nat} {db : List StoredIssue}
    (h : Reachable t db) :
    ∀ i, i ∈ db → i.created_at ≤ i.updated_at ∧ i.updated_at ≤ t := by
  induction h with
  | init => intro i hi; cases hi
  | create d uuid t₁ t₂ hr hv h₁ h₂ ih =>
    intro i hi
    rcases List.mem_append.mp hi with hi | hi
    · rcases ih i hi with ⟨hc, hu⟩
      exact ⟨hc, Nat.le_trans hu (Nat.le_trans h₁ h₂)⟩
    · rcases List.mem_singleton.mp hi with rfl
      exact ⟨h₂, Nat.le_refl _⟩
  | update issue_id u t' hr hv hle ih =>
    rename_i t0 db0
    intro i hi
    rcases hf : db0.find? (fun j => j.id == issue_id) with _ | j
    · rw [update_issue, hf] at hi
      rcases ih i hi with ⟨hc, hu⟩
      exact ⟨hc, Nat.le_trans hu hle⟩
    · rw [update_issue, hf] at hi
      have hi2 : i ∈ replaceFirst db0 issue_id (applyUpdate u j t') := hi
      rcases mem_replaceFirst hi2 with rfl | hi'
      · have hj : j ∈ db0 := List.mem_of_find?_eq_some hf
        rcases ih j hj with ⟨hc, hu⟩
        exact ⟨Nat.le_trans hc (Nat.le_trans hu hle), Nat.le_refl _⟩
      · rcases ih i hi' with ⟨hc, hu⟩
        exact ⟨hc, Nat.le_trans hu hle⟩

/-- C7: in every reachable state of the store, every issue satisfies
`created_at ≤ updated_at`: creation stamps `created_at` with the first
`datetime.now()` call and `updated_at` with the second (so `≤` even there),
and every successful update only moves `updated_at` forward while leaving
`created_at` untouched. -/
theorem reachable_created_le_updated {t : Nat} {db : List StoredIssue}
    (h : Reachable t db) :
    ∀ i, i ∈ db → i.created_at ≤ i.updated_at :=
  fun i hi => (reachable_timestamps h i hi).1

/-- A concrete reachable state: create at time 3, then update the priority
at time 7. -/
theorem demo_state_reachable :
    Reachable 7 [applyUpdate highPriorityPatch demoStored 7] := by
  have h0 : Reachable 3 ([] ++ [(create_issue demoCreate "uuid-1" 3 3).toStored]) :=
    Reachable.create demoCreate "uuid-1" 3 3 Reachable.init
      ⟨by decide, by decide, fun s hs => Option.noConfusion hs,
        fun s hs => Option.noConfusion hs⟩
      (Nat.zero_le 3) (Nat.le_refl 3)
  have h1 : Reachable 7 (update_issue [demoStored] "uuid-1" highPriorityPatch 7).2 :=
    Reachable.update "uuid-1" highPriorityPatch 7 h0
      ⟨fun v hv => Option.noConfusion hv, fun v hv => Option.noConfusion hv,
        fun v hv => Option.noConfusion hv⟩
      (by decide)
  have h2 : (update_issue [demoStored] "uuid-1" highPriorityPatch 7).2 =
      [applyUpdate highPriorityPatch demoStored 7] := by decide
  rw [h2] at h1
  exact h1

/-- C7 witness: the invariant applied to the record of the concrete
reachable state above. -/
theorem reachable_created_le_updated_witness :
    (applyUpdate highPriorityPatch demoStored 7).created_at ≤
      (applyUpdate highPriorityPatch demoStored 7).updated_at :=
  reachable_created_le_updated demo_state_reachable
    (applyUpdate highPriorityPatch demoStored 7) (List.mem_singleton.mpr rfl)

/-- C6 (code bug): the claimed invariant "`title` is never empty/null in any
reachable state" is violated by the code.  `IssueUpdate.title` is declared
`Optional[str]`, so the boundary accepts the body `{"title": null}`
(the 1–200-character constraint applies only to actual strings);
`model_dump(exclude_unset=True)` keeps the explicitly-provided `None`; and
`setattr` assigns it without validation.  Hence a state whose stored record
has `title = None` is reachable through boundary-validated requests:
create at time 3, then `PUT` with `{"title": null}` at time 7. -/
theorem reachable_state_with_null_title :
    ValidUpdateRequest nullTitlePatch ∧
    Reachable 7 [applyUpdate nullTitlePatch demoStored 7] ∧
    (applyUpdate nullTitlePatch demoStored 7).title = none := by
  have hv : ValidUpdateRequest nullTitlePatch :=
    ⟨fun t ht => Option.noConfusion (Option.some.inj ht),
     fun s hs => Option.noConfusion hs,
     fun s hs => Option.noConfusion hs⟩
  refine ⟨hv, ?_, rfl⟩
  have h0 : Reachable 3 ([] ++ [(create_issue demoCreate "uuid-1" 3 3).toStored]) :=
    Reachable.create demoCreate "uuid-1" 3 3 Reachable.init
      ⟨by decide, by decide, fun s hs => Option.noConfusion hs,
        fun s hs => Option.noConfusion hs⟩
      (Nat.zero_le 3) (Nat.le_refl 3)
  have h1 : Reachable 7 (update_issue [demoStored] "uuid-1" nullTitlePatch 7).2 :=
    Reachable.update "uuid-1" nullTitlePatch 7 h0 hv (by decide)
  have h2 : (update_issue [demoStored] "uuid-1" nullTitlePatch 7).2 =
      [applyUpdate nullTitlePatch demoStored 7] := by decide
  rw [h2] at h1
  exact h1

/-- C10 witness: the theorem applied to the garbage order `"ASC"` (not the
literal `"desc"`) with the `priority` key on a concrete collection. -/
theorem only_desc_sorts_descending_witness :
    ("ASC" : String) ≠ "desc" ∧
    (sortStep "priority" "ASC" [demoIssueA, demoIssueB]).Sorted
      (sortRel "priority") := by
  have h : ("ASC" : String) ≠ "desc" := by decide
  exact ⟨h,
    (only_desc_sorts_descending "priority" "ASC" [demoIssueA, demoIssueB]).2.1 h⟩
